import Mathlib

/-
Verification of the Math Mania room/round synchronisation core
(src/app/room/[roomCode]/page.tsx, src/app/page.tsx, src/types/game.ts).
The Firestore room document is embedded as a pure state record and every
operation as a state transformer on it; randomness, server timestamps and
elapsed round time are explicit parameters.  Client-local UI state
(toasts, input fields, the isRoundEnding display flag) is outside the
room document and not modelled.
-/

namespace MathMania

/-- Player record, from src/types/game.ts.  `isCorrect` is tri-state:
`none` models the stored null ("unknown"). -/
structure Player where
  id : String
  name : String
  score : Int
  isHost : Bool
  hasAnswered : Bool
  isCorrect : Option Bool
deriving DecidableEq, Repr

/-- Room document, from src/types/game.ts (`GameState`).  `roundStartTime`
is the authoritative server timestamp, `none` before the first round. -/
structure GameState where
  question : String
  answer : Int
  players : List Player
  timeLeft : Int
  isGameActive : Bool
  currentRound : Int
  roundStartTime : Option Int
deriving DecidableEq, Repr

/-- ROUND_DURATION = 30 seconds. -/
def ROUND_DURATION : Int := 30

/-- The initial room document written by handleCreateRoom (src/app/page.tsx). -/
def initialGameState : GameState :=
  { question := "Waiting for host to start..."
    answer := 0
    players := []
    timeLeft := 0
    isGameActive := false
    currentRound := 0
    roundStartTime := none }

/-- The four operation symbols of `operations = ['+', '-', '*', '/']`. -/
inductive Op
  | add
  | sub
  | mul
  | div
deriving DecidableEq, Repr

/-- operations[Math.floor(Math.random() * operations.length)]. -/
def operations (i : Fin 4) : Op :=
  if i.val = 0 then .add else if i.val = 1 then .sub else if i.val = 2 then .mul else .div

/-- One iteration of random draws inside generateEquation: the operation
index and the two raw `Math.floor(Math.random() * range)` values. -/
structure EqDraw where
  op : Fin 4
  r1 : Nat
  r2 : Nat
deriving DecidableEq, Repr

/-- Operand range: 15 for `*` and `/`, 50 otherwise. -/
def numRange (o : Op) : Nat := if o = .mul ∨ o = .div then 15 else 50

/-- num1 = Math.floor(Math.random() * range) + 1, so 1 ≤ num1 ≤ range. -/
def num1 (d : EqDraw) : Nat := d.r1 % numRange (operations d.op) + 1

/-- num2 = Math.floor(Math.random() * range) + (op === '/' ? 1 : 0). -/
def num2 (d : EqDraw) : Nat :=
  d.r2 % numRange (operations d.op) + (if operations d.op = .div then 1 else 0)

/-- The switch body of generateEquation: the displayed question and the
answer for one draw.  For `/` the displayed dividend is the product
num1 * num2 and the answer is num1, so the division is exact by
construction; the source's `if (num2 === 0) continue` guard is dead
because num2 ≥ 1 for `/`. -/
def runBody (d : EqDraw) : String × Int :=
  let n1 := num1 d
  let n2 := num2 d
  match operations d.op with
  | .add => (toString n1 ++ " + " ++ toString n2, (n1 : Int) + (n2 : Int))
  | .sub => (toString (max n1 n2) ++ " - " ++ toString (min n1 n2),
      ((max n1 n2 : Nat) : Int) - ((min n1 n2 : Nat) : Int))
  | .mul => (toString n1 ++ " × " ++ toString n2, (n1 : Int) * (n2 : Int))
  | .div => (toString (n1 * n2) ++ " ÷ " ++ toString n2, (n1 : Int))

/-- The retry loop of generateEquation over a stream of per-attempt
outcomes.  `(outcomes a).2 = none` models attempt `a` producing an answer
that fails the `isNaN(answer) || !Number.isInteger(answer)` test; fuel
makes the possibly diverging while-loop total, `none` meaning the loop has
not exited within `fuel` iterations.  Exactly as in the source, the loop
exits only when the answer is an integer AND `attempts > 100` is false. -/
def genLoopAux (outcomes : Nat → String × Option Int) :
    Nat → Nat → Option (Nat × String × Int)
  | 0, _ => none
  | fuel + 1, attempts =>
    match (outcomes (attempts + 1)).2 with
    | some v =>
      if attempts + 1 > 100 then genLoopAux outcomes fuel (attempts + 1)
      else some (attempts + 1, (outcomes (attempts + 1)).1, v)
    | none => genLoopAux outcomes fuel (attempts + 1)

/-- generateEquation: the retry loop followed by the source's
`if (attempts > 100)` fallback to ("1 + 1", 2). -/
def generateEquationGen (outcomes : Nat → String × Option Int) (fuel : Nat) :
    Option (String × Int) :=
  match genLoopAux outcomes fuel 0 with
  | some (a, q, v) => if a > 100 then some ("1 + 1", 2) else some (q, v)
  | none => none

/-- Outcome stream of the actual draw bodies: every attempt produces an
integer answer, so no attempt ever fails the integrality test. -/
def outcomesOfDraws (draws : Nat → EqDraw) (n : Nat) : String × Option Int :=
  ((runBody (draws n)).1, some (runBody (draws n)).2)

/-- generateEquation over a stream of actual random draws. -/
def generateEquation (draws : Nat → EqDraw) (fuel : Nat) : Option (String × Int) :=
  generateEquationGen (outcomesOfDraws draws) fuel

/-- A pathological outcome stream: the first 100 attempts fail the
integrality test, every later attempt yields the valid equation 1 + 1 = 2. -/
def badOutcomes (n : Nat) : String × Option Int :=
  if n ≤ 100 then ("", none) else ("1 + 1", some (2 : Int))

/-- The Player constructed by handleJoinGame:
shouldBeHost = isInitiallyHost && players.length === 0. -/
def newPlayerOf (isInitiallyHost : Bool) (playerId name : String)
    (s : GameState) : Player :=
  { id := playerId, name := name, score := 0
    isHost := isInitiallyHost && s.players.length == 0
    hasAnswered := false, isCorrect := none }

/-- handleJoinGame continued: empty-name guard, case-insensitive
name-taken guard, then the arrayUnion append of the new player. -/
def handleJoinGame (isInitiallyHost : Bool) (playerId name : String)
    (s : GameState) : GameState :=
  if name = "" then s
  else if s.players.any (fun p => p.name.toLower == name.toLower) then s
  else { s with players := s.players ++ [newPlayerOf isInitiallyHost playerId name s] }

/-- startGame: only from an inactive room with players; resets every
player's score/hasAnswered/isCorrect, sets round 1, installs the generated
equation and the fresh server timestamp `ts`. -/
def startGame (d : EqDraw) (ts : Int) (s : GameState) : GameState :=
  if s.isGameActive || s.players.isEmpty then s
  else
    { s with
      question := (runBody d).1
      answer := (runBody d).2
      timeLeft := ROUND_DURATION
      isGameActive := true
      currentRound := 1
      players := s.players.map (fun p =>
        { p with score := 0, hasAnswered := false, isCorrect := none })
      roundStartTime := some ts }

/-- nextQuestion: only while the game is active; increments the round,
resets hasAnswered/isCorrect (scores kept), fresh equation and timestamp. -/
def nextQuestion (d : EqDraw) (ts : Int) (s : GameState) : GameState :=
  if !s.isGameActive then s
  else
    { s with
      question := (runBody d).1
      answer := (runBody d).2
      timeLeft := ROUND_DURATION
      currentRound := s.currentRound + 1
      players := s.players.map (fun p =>
        { p with hasAnswered := false, isCorrect := none })
      roundStartTime := some ts }

/-- endRound: aborts when the game is no longer active; marks every
unanswered player incorrect (isCorrect = false), keeps answered players'
isCorrect, and zeroes timeLeft. -/
def endRound (s : GameState) : GameState :=
  if !s.isGameActive then s
  else
    { s with
      players := s.players.map (fun p =>
        { p with isCorrect := if p.hasAnswered then p.isCorrect else some false })
      timeLeft := 0 }

/-- timeTaken = Math.min(ROUND_DURATION, Math.max(0, timeElapsed)). -/
def timeTaken (timeElapsed : Int) : Int := min ROUND_DURATION (max 0 timeElapsed)

/-- The time-decayed reward (ROUND_DURATION - timeTaken) * 2 + 10. -/
def decayScore (timeElapsed : Int) : Int :=
  (ROUND_DURATION - timeTaken timeElapsed) * 2 + 10

/-- scoreToAdd = isAnswerCorrect ? Math.max(5, (ROUND_DURATION - timeTaken) * 2 + 10) : 0. -/
def scoreToAdd (isAnswerCorrect : Bool) (timeElapsed : Int) : Int :=
  if isAnswerCorrect then max 5 (decayScore timeElapsed) else 0

/-- calculateRoundTimeLeft = Math.max(0, ROUND_DURATION - elapsed). -/
def calculateRoundTimeLeft (elapsed : Int) : Int := max 0 (ROUND_DURATION - elapsed)

/-- handleAnswerSubmit, room-document core.  `rawValue` is the parseInt
result (`none` for an empty or unparseable input) and `t` the elapsed
round seconds measured from the authoritative roundStartTime.  Guards:
game active, time remaining, player present and not yet answered,
parseable value; then the read-modify-write over the player list. -/
def handleAnswerSubmit (playerId : String) (rawValue : Option Int) (t : Int)
    (s : GameState) : GameState :=
  if !s.isGameActive then s
  else if calculateRoundTimeLeft t ≤ 0 then s
  else
    match s.players.find? (fun p => p.id == playerId) with
    | none => s
    | some playerInState =>
      if playerInState.hasAnswered then s
      else
        match rawValue with
        | none => s
        | some submittedAnswer =>
          let isAnswerCorrect : Bool := submittedAnswer == s.answer
          { s with
            players := s.players.map (fun p =>
              if p.id == playerId then
                { p with
                  score := p.score + scoreToAdd isAnswerCorrect t
                  hasAnswered := true
                  isCorrect := some isAnswerCorrect }
              else p) }

/-- handleLeaveGame, room-document core.  `none` means the room document
was deleted.  The leaving player is removed; if it was the host and
players remain, the remaining player at index 0 (join order) becomes host
and every other remaining player is explicitly demoted. -/
def handleLeaveGame (playerId : String) (s : GameState) : Option GameState :=
  match s.players.find? (fun p => p.id == playerId) with
  | none => some s
  | some leavingPlayer =>
    let remainingPlayers := s.players.filter (fun p => !(p.id == playerId))
    if remainingPlayers.isEmpty then none
    else if leavingPlayer.isHost then
      some { s with players := remainingPlayers.mapIdx (fun i p =>
        if i == 0 then { p with isHost := true } else { p with isHost := false }) }
    else
      some { s with players := remainingPlayers }

/-- The Firestore gameRooms collection as a keyed document store. -/
def Store : Type := String → Option GameState

/-- get(key). -/
def Store.get (st : Store) (code : String) : Option GameState := st code

/-- Write (some doc) or delete (none) at a key. -/
def Store.set (st : Store) (code : String) (v : Option GameState) : Store :=
  fun k => if k == code then v else st k

/-- handleLeaveGame at the store level: batch.delete when the last player
leaves, batch.update otherwise; no-op when the room no longer exists. -/
def leaveRoomStore (code playerId : String) (st : Store) : Store :=
  match st code with
  | none => st
  | some room => Store.set st code (handleLeaveGame playerId room)

/-- Number of players flagged as host. -/
def hostCount (ps : List Player) : Nat := ps.countP (fun p => p.isHost)

/-- Room documents reachable from a fresh room through the operations of
the page, with arbitrary draws, timestamps and inputs; `leave` keeps only
the branch in which the document still exists afterwards. -/
inductive Reachable : GameState → Prop
  | init : Reachable initialGameState
  | join (f : Bool) (pid nm : String) {s : GameState} :
      Reachable s → Reachable (handleJoinGame f pid nm s)
  | start (d : EqDraw) (ts : Int) {s : GameState} :
      Reachable s → Reachable (startGame d ts s)
  | next (d : EqDraw) (ts : Int) {s : GameState} :
      Reachable s → Reachable (nextQuestion d ts s)
  | ended {s : GameState} : Reachable s → Reachable (endRound s)
  | submit (pid : String) (v : Option Int) (t : Int) {s : GameState} :
      Reachable s → Reachable (handleAnswerSubmit pid v t s)
  | leave (pid : String) {s s2 : GameState} :
      Reachable s → handleLeaveGame pid s = some s2 → Reachable s2

/-- Single-player well-formedness: a player never shows a correctness
verdict of true without having answered, and an answered player always
has a verdict. -/
def PlayerOk (p : Player) : Prop :=
  (p.hasAnswered = false → p.isCorrect ≠ some true) ∧
  (p.hasAnswered = true → p.isCorrect ≠ none)

/-- Room well-formedness: at most one host, and every player is well
formed. -/
def StateOk (s : GameState) : Prop :=
  hostCount s.players ≤ 1 ∧ ∀ p ∈ s.players, PlayerOk p

/-- A concrete draw for op `+` with both raw draws 0 (question 1 + 0). -/
def drawAdd : EqDraw := ⟨0, 0, 0⟩

/-- A concrete draw for op `/` with raw draws 2 and 4 (question 15 ÷ 5). -/
def drawDiv : EqDraw := ⟨3, 2, 4⟩

/-- The player produced by the first create-flow join. -/
def avaHost : Player :=
  { id := "p1", name := "Ava", score := 0, isHost := true
    hasAnswered := false, isCorrect := none }

/-- A room whose single player joined through the create flow. -/
def hostedRoom : GameState := handleJoinGame true "p1" "Ava" initialGameState

/-- A room whose single player joined without the create-flow host flag. -/
def joinNoFlagState : GameState := handleJoinGame false "p1" "Ava" initialGameState

/-- hostedRoom with round 1 started at server timestamp 1000. -/
def activeRoom : GameState := startGame drawAdd 1000 hostedRoom

/-- activeRoom after endRound. -/
def endedRoom : GameState := endRound activeRoom

/-- A second, non-host player. -/
def playerB : Player :=
  { id := "pB", name := "Ben", score := 3, isHost := false
    hasAnswered := false, isCorrect := none }

/-- A third, non-host player who already answered. -/
def playerC : Player :=
  { id := "pC", name := "Cal", score := 7, isHost := false
    hasAnswered := true, isCorrect := some true }

/-- A lobby with three players in join order Ava (host), Ben, Cal. -/
def threeRoom : GameState :=
  { initialGameState with players := [avaHost, playerB, playerC] }

/-- A store holding hostedRoom under the key 482913 and nothing else. -/
def soloStore : Store := Store.set (fun _ => none) "482913" (some hostedRoom)

theorem hostCount_append (l1 l2 : List Player) :
    hostCount (l1 ++ l2) = hostCount l1 + hostCount l2 :=
  List.countP_append _ _ _

theorem hostCount_map_eq (f : Player → Player)
    (hf : ∀ p, (f p).isHost = p.isHost) (ps : List Player) :
    hostCount (ps.map f) = hostCount ps := by
  unfold hostCount
  rw [List.countP_map]
  exact List.countP_congr (fun p _ => by simp [Function.comp, hf])

theorem hostCount_filter_le (q : Player → Bool) (ps : List Player) :
    hostCount (ps.filter q) ≤ hostCount ps :=
  (List.filter_sublist ps).countP_le _

theorem mapIdx_succ_eq_map (f : Nat → Player → Player) (g : Player → Player)
    (hf : ∀ i p, f (i + 1) p = g p) :
    ∀ l : List Player, List.mapIdx (fun i p => f (i + 1) p) l = l.map g := by
  intro l
  induction l generalizing f with
  | nil => rfl
  | cons a l ih =>
    rw [List.mapIdx_cons, hf 0 a, List.map_cons]
    congr 1
    exact ih (fun i p => f (i + 1) p) (fun i p => hf (i + 1) p)

theorem promote_cons (r : Player) (rs : List Player) :
    List.mapIdx (fun i p =>
        if i == 0 then { p with isHost := true } else { p with isHost := false })
      (r :: rs) =
    { r with isHost := true } :: rs.map (fun p => { p with isHost := false }) := by
  rw [List.mapIdx_cons]
  congr 1
  exact mapIdx_succ_eq_map
    (fun i p => if i == 0 then { p with isHost := true } else { p with isHost := false })
    (fun p => { p with isHost := false }) (fun i p => by simp) rs

theorem find_update (ps : List Player) (pid : String) (f : Player → Player)
    (hf : ∀ p, (f p).id = p.id) :
    (ps.map (fun p => if p.id == pid then f p else p)).find? (fun p => p.id == pid) =
      (ps.find? (fun p => p.id == pid)).map (fun p => if p.id == pid then f p else p) := by
  induction ps with
  | nil => rfl
  | cons a l ih =>
    rw [List.map_cons]
    by_cases h : (a.id == pid) = true
    · simp [if_pos h, List.find?_cons, hf, h]
      rw [if_pos (show a.id = pid by simpa using h)]
    · have hf1 : (a.id == pid) = false := by simpa using h
      rw [if_neg h]
      simp only [List.find?_cons, hf1]
      exact ih

theorem hostCount_singleton (x : Player) :
    hostCount [x] = if x.isHost then 1 else 0 := by
  simp [hostCount, List.countP_cons, List.countP_nil]

theorem stateOk_join (f : Bool) (pid nm : String) (s : GameState)
    (h : StateOk s) : StateOk (handleJoinGame f pid nm s) := by
  by_cases h0 : nm = ""
  · simpa [handleJoinGame, h0] using h
  by_cases h1 : s.players.any (fun p => p.name.toLower == nm.toLower)
  · simpa [handleJoinGame, h0, h1] using h
  have hexp : (handleJoinGame f pid nm s).players =
      s.players ++ [newPlayerOf f pid nm s] := by
    simp [handleJoinGame, h0, h1, newPlayerOf]
  refine ⟨?_, ?_⟩
  · rw [hexp, hostCount_append, hostCount_singleton]
    cases hps : s.players with
    | nil =>
      cases f <;> simp [hostCount, newPlayerOf, hps]
    | cons a l =>
      have hb : ((newPlayerOf f pid nm s).isHost) = false := by
        simp [newPlayerOf, hps]
      rw [hb]
      have h2 := h.1
      rw [hps] at h2
      simpa using h2
  · intro p hp
    rw [hexp] at hp
    rcases List.mem_append.mp hp with hl | hr
    · exact h.2 p hl
    · have hpe : p = newPlayerOf f pid nm s := by simpa using hr
      subst hpe
      exact ⟨fun _ => by simp [newPlayerOf], fun hcontra => by simp [newPlayerOf] at hcontra⟩

theorem stateOk_start (d : EqDraw) (ts : Int) (s : GameState)
    (h : StateOk s) : StateOk (startGame d ts s) := by
  by_cases hg : (s.isGameActive || s.players.isEmpty) = true
  · simpa [startGame, hg] using h
  have hexp : (startGame d ts s).players = s.players.map (fun p =>
      { p with score := 0, hasAnswered := false, isCorrect := none }) := by
    simp [startGame, hg]
  constructor
  · rw [hexp]
    rw [hostCount_map_eq
      (fun p => { p with score := 0, hasAnswered := false, isCorrect := none })
      (fun p => rfl)]
    exact h.1
  · intro p hp
    rw [hexp] at hp
    rcases List.mem_map.mp hp with ⟨q, _, hq⟩
    subst hq
    exact ⟨fun _ => by simp, fun hcontra => by simp at hcontra⟩

theorem stateOk_next (d : EqDraw) (ts : Int) (s : GameState)
    (h : StateOk s) : StateOk (nextQuestion d ts s) := by
  by_cases hg : s.isGameActive
  · have hexp : (nextQuestion d ts s).players = s.players.map (fun p =>
        { p with hasAnswered := false, isCorrect := none }) := by
      simp [nextQuestion, hg]
    constructor
    · rw [hexp]
      rw [hostCount_map_eq
        (fun p => { p with hasAnswered := false, isCorrect := none })
        (fun p => rfl)]
      exact h.1
    · intro p hp
      rw [hexp] at hp
      rcases List.mem_map.mp hp with ⟨q, _, hq⟩
      subst hq
      exact ⟨fun _ => by simp, fun hcontra => by simp at hcontra⟩
  · simpa [nextQuestion, hg] using h

theorem stateOk_endRound (s : GameState) (h : StateOk s) :
    StateOk (endRound s) := by
  by_cases hg : s.isGameActive
  · have hexp : (endRound s).players = s.players.map (fun p =>
        { p with isCorrect := if p.hasAnswered then p.isCorrect else some false }) := by
      simp [endRound, hg]
    constructor
    · rw [hexp]
      rw [hostCount_map_eq
        (fun p => { p with isCorrect := if p.hasAnswered then p.isCorrect else some false })
        (fun p => rfl)]
      exact h.1
    · intro p hp
      rw [hexp] at hp
      rcases List.mem_map.mp hp with ⟨q, hqmem, hq⟩
      subst hq
      refine ⟨fun hna => ?_, fun ha => ?_⟩
      · simp only at hna
        simp [hna]
      · simp only at ha
        simp only [ha, if_pos]
        exact (h.2 q hqmem).2 ha
  · simpa [endRound, hg] using h

theorem stateOk_submit (pid : String) (v : Option Int) (t : Int)
    (s : GameState) (h : StateOk s) :
    StateOk (handleAnswerSubmit pid v t s) := by
  by_cases hAct : s.isGameActive
  · by_cases ht : calculateRoundTimeLeft t ≤ 0
    · simpa [handleAnswerSubmit, hAct, ht] using h
    cases hfind : s.players.find? (fun p => p.id == pid) with
    | none => simpa [handleAnswerSubmit, hAct, ht, hfind] using h
    | some q =>
      by_cases hq : q.hasAnswered
      · simpa [handleAnswerSubmit, hAct, ht, hfind, hq] using h
      cases v with
      | none => simpa [handleAnswerSubmit, hAct, ht, hfind, hq] using h
      | some n =>
        have hexp : (handleAnswerSubmit pid (some n) t s).players =
            s.players.map (fun p =>
              if p.id == pid then
                { p with
                  score := p.score + scoreToAdd (n == s.answer) t
                  hasAnswered := true
                  isCorrect := some (n == s.answer) }
              else p) := by
          simp [handleAnswerSubmit, hAct, ht, hfind, hq]
        constructor
        · rw [hexp]
          rw [hostCount_map_eq
            (fun p =>
              if p.id == pid then
                { p with
                  score := p.score + scoreToAdd (n == s.answer) t
                  hasAnswered := true
                  isCorrect := some (n == s.answer) }
              else p)
            (fun p => by by_cases hid : (p.id == pid) = true <;> simp [hid])]
          exact h.1
        · intro p hp
          rw [hexp] at hp
          rcases List.mem_map.mp hp with ⟨r, hrmem, hr⟩
          subst hr
          by_cases hid : (r.id == pid) = true
          · simp only [hid, if_pos]
            exact ⟨fun hcontra => by simp at hcontra, fun _ => by simp⟩
          · have hid2 : (r.id == pid) = false := by simpa using hid
            simp only [hid2]
            simpa using h.2 r hrmem
  · simpa [handleAnswerSubmit, hAct] using h

theorem stateOk_leave (pid : String) (s s2 : GameState) (h : StateOk s)
    (hl : handleLeaveGame pid s = some s2) : StateOk s2 := by
  unfold handleLeaveGame at hl
  cases hfind : s.players.find? (fun p => p.id == pid) with
  | none =>
    rw [hfind] at hl
    simp at hl
    subst hl
    exact h
  | some leaving =>
    rw [hfind] at hl
    simp only at hl
    by_cases hemp : (s.players.filter (fun p => !(p.id == pid))).isEmpty
    · rw [if_pos hemp] at hl
      simp at hl
    rw [if_neg hemp] at hl
    by_cases hw : leaving.isHost
    · rw [if_pos hw] at hl
      cases hrem : s.players.filter (fun p => !(p.id == pid)) with
      | nil => rw [hrem] at hemp; simp at hemp
      | cons r rs =>
        rw [hrem, promote_cons] at hl
        have hs2 : s2.players =
            { r with isHost := true } :: rs.map (fun p => { p with isHost := false }) := by
          rw [← Option.some_inj.mp hl]
        constructor
        · rw [hs2]
          unfold hostCount
          rw [List.countP_cons, List.countP_map]
          have : List.countP ((fun p => p.isHost) ∘ fun p =>
              ({ p with isHost := false } : Player)) rs = 0 := by
            rw [List.countP_eq_zero]
            intro a _
            simp [Function.comp]
          simp [this]
        · intro p hp
          rw [hs2] at hp
          rcases List.mem_cons.mp hp with hhead | htail
          · subst hhead
            have hrmem : r ∈ s.players := by
              have : r ∈ s.players.filter (fun p => !(p.id == pid)) := by
                rw [hrem]; exact List.mem_cons_self r rs
              exact (List.mem_filter.mp this).1
            have := h.2 r hrmem
            exact ⟨fun hna => this.1 hna, fun ha => this.2 ha⟩
          · rcases List.mem_map.mp htail with ⟨a, hamem, ha⟩
            subst ha
            have hamem2 : a ∈ s.players := by
              have : a ∈ s.players.filter (fun p => !(p.id == pid)) := by
                rw [hrem]; exact List.mem_cons_of_mem r hamem
              exact (List.mem_filter.mp this).1
            have := h.2 a hamem2
            exact ⟨fun hna => this.1 hna, fun ha2 => this.2 ha2⟩
    · rw [if_neg hw] at hl
      have hs2 : s2.players = s.players.filter (fun p => !(p.id == pid)) := by
        rw [← Option.some_inj.mp hl]
      constructor
      · rw [hs2]
        exact le_trans (hostCount_filter_le _ _) h.1
      · intro p hp
        rw [hs2] at hp
        exact h.2 p (List.mem_filter.mp hp).1

theorem reachable_stateOk (s : GameState) (h : Reachable s) : StateOk s := by
  induction h with
  | init =>
    exact ⟨by simp [hostCount, initialGameState], by intro p hp; simp [initialGameState] at hp⟩
  | join f pid nm _ ih => exact stateOk_join f pid nm _ ih
  | start d ts _ ih => exact stateOk_start d ts _ ih
  | next d ts _ ih => exact stateOk_next d ts _ ih
  | ended _ ih => exact stateOk_endRound _ ih
  | submit pid v t _ ih => exact stateOk_submit pid v t _ ih
  | leave pid _ hl ih => exact stateOk_leave pid _ _ ih hl

/-- Claim C1, amended: in every reachable room state at most one player
has isHost = true.  (Exactly one is not guaranteed: a first join without
the create-flow host flag yields a non-empty room with zero hosts, see the
counterexample; all operations preserve at-most-one, and a host leaving
with players remaining restores exactly one.) -/
theorem reachable_hostCount_le_one (s : GameState) (h : Reachable s) :
    hostCount s.players ≤ 1 :=
  (reachable_stateOk s h).1

/-- Claim C1, witness: the amended invariant at a concrete reachable
one-player room. -/
theorem reachable_hostCount_le_one_witness :
    Reachable hostedRoom ∧ hostCount hostedRoom.players ≤ 1 :=
  ⟨Reachable.join true "p1" "Ava" Reachable.init,
    reachable_hostCount_le_one hostedRoom
      (Reachable.join true "p1" "Ava" Reachable.init)⟩

/-- Claim C1, counterexample: joining an empty room without the
create-flow host flag is reachable and yields a room with one player and
zero hosts, refuting "exactly one player has isHost = true whenever the
players list is non-empty". -/
theorem join_without_flag_yields_no_host :
    Reachable joinNoFlagState ∧
    joinNoFlagState.players.length = 1 ∧
    hostCount joinNoFlagState.players = 0 :=
  ⟨Reachable.join false "p1" "Ava" Reachable.init, by decide, by decide⟩

/-- Claim C2, amended: in every reachable room state, a player with
hasAnswered = false never has isCorrect = true; it is unknown (null) or,
after endRound has finalized the round, false.  (The original "isCorrect
stays unknown" is refuted by endRound, see the counterexample.) -/
theorem reachable_unanswered_never_true (s : GameState) (h : Reachable s) :
    ∀ p ∈ s.players, p.hasAnswered = false → p.isCorrect ≠ some true :=
  fun p hp ha => ((reachable_stateOk s h).2 p hp).1 ha

/-- Claim C2, witness: the amended invariant at a concrete reachable room
and player. -/
theorem reachable_unanswered_never_true_witness :
    Reachable hostedRoom ∧ avaHost ∈ hostedRoom.players ∧
    avaHost.isCorrect ≠ some true :=
  ⟨Reachable.join true "p1" "Ava" Reachable.init, by decide,
    reachable_unanswered_never_true hostedRoom
      (Reachable.join true "p1" "Ava" Reachable.init) avaHost (by decide)
      (by decide)⟩

/-- Claim C2, counterexample: after endRound on a reachable active room,
the player who never answered has hasAnswered = false yet
isCorrect = some false, not unknown: endRound does set isCorrect on a
player whose hasAnswered is false. -/
theorem endRound_unanswered_marked_false :
    Reachable endedRoom ∧
    endedRoom.players.map (fun p => (p.hasAnswered, p.isCorrect)) =
      [(false, some false)] :=
  ⟨Reachable.ended (Reachable.start drawAdd 1000
      (Reachable.join true "p1" "Ava" Reachable.init)),
    by decide⟩

/-- Claim C3: every equation produced by the generator is the body result
of the first draw; every body result has an integer answer ≥ 0; and for
every division-typed draw the displayed dividend num1 * num2 divided by
the displayed divisor num2 equals the answer exactly, with the divisor
strictly positive. -/
theorem generateEquation_valid :
    (∀ draws : Nat → EqDraw, ∀ fuel : Nat,
      generateEquation draws (fuel + 1) = some (runBody (draws 1))) ∧
    (∀ d : EqDraw, 0 ≤ (runBody d).2) ∧
    (∀ d : EqDraw, operations d.op = Op.div →
      0 < num2 d ∧
      (runBody d).1 = toString (num1 d * num2 d) ++ " ÷ " ++ toString (num2 d) ∧
      ((num1 d * num2 d : Nat) : Int) / ((num2 d : Nat) : Int) = (runBody d).2) := by
  refine ⟨?_, ?_, ?_⟩
  · intro draws fuel
    simp [generateEquation, generateEquationGen, genLoopAux, outcomesOfDraws]
  · intro d
    cases hop : operations d.op with
    | add => simp [runBody, hop]; positivity
    | sub =>
      simp only [runBody, hop]
      have hmm : min (num1 d) (num2 d) ≤ max (num1 d) (num2 d) := min_le_max
      omega
    | mul => simp [runBody, hop]; positivity
    | div => simp [runBody, hop]
  · intro d hop
    have h2 : 0 < num2 d := by
      simp [num2, hop]
    refine ⟨h2, ?_, ?_⟩
    · simp [runBody, hop]
    · simp only [runBody, hop]
      push_cast
      exact Int.mul_ediv_cancel _ (by exact_mod_cast h2.ne.symm)

/-- Claim C3, witness: the division facts at the concrete draw 15 ÷ 5 = 3. -/
theorem generateEquation_valid_witness :
    operations drawDiv.op = Op.div ∧
    0 < num2 drawDiv ∧
    ((num1 drawDiv * num2 drawDiv : Nat) : Int) / ((num2 drawDiv : Nat) : Int) =
      (runBody drawDiv).2 :=
  ⟨by decide, (generateEquation_valid.2.2 drawDiv (by decide)).1,
    (generateEquation_valid.2.2 drawDiv (by decide)).2.2⟩

theorem genLoopAux_badOutcomes_none :
    ∀ fuel attempts, genLoopAux badOutcomes fuel attempts = none := by
  intro fuel
  induction fuel with
  | zero => intro attempts; rfl
  | succ fuel ih =>
    intro attempts
    by_cases h : attempts + 1 ≤ 100
    · have hbad : (badOutcomes (attempts + 1)).2 = none := by
        simp [badOutcomes, h]
      simp [genLoopAux, hbad, ih]
    · have hbad : (badOutcomes (attempts + 1)).2 = some 2 := by
        simp [badOutcomes, h]
      have hgt : attempts + 1 > 100 := by omega
      simp [genLoopAux, hbad, hgt, ih]

/-- Claim C4 (code bug): on an outcome stream whose first 100 attempts
violate the integrality constraint and which produces the valid equation
1 + 1 = 2 on every later attempt, the generator never returns at all (for
every fuel bound), instead of returning the fallback ("1 + 1", 2) after
100 attempts: the while-condition `attempts > 100` can only be true, never
restore the exit, once the retries are exhausted, so the
`if (attempts > 100)` fallback branch is unreachable. -/
theorem generateEquation_never_falls_back :
    ∀ fuel : Nat, generateEquationGen badOutcomes fuel = none := by
  intro fuel
  simp [generateEquationGen, genLoopAux_badOutcomes_none]

/-- Claim C5: after endRound completes on a reachable room in the
Answering phase (isGameActive), every player has isCorrect ≠ unknown:
players with hasAnswered = false get isCorrect = false while players with
hasAnswered = true keep the isCorrect value assigned at submission time. -/
theorem endRound_isCorrect_total (s : GameState) (h : Reachable s)
    (hact : s.isGameActive = true) :
    (endRound s).players = s.players.map (fun p =>
        { p with isCorrect := if p.hasAnswered then p.isCorrect else some false }) ∧
    ∀ p ∈ (endRound s).players, p.isCorrect ≠ none := by
  have hexp : (endRound s).players = s.players.map (fun p =>
      { p with isCorrect := if p.hasAnswered then p.isCorrect else some false }) := by
    simp [endRound, hact]
  refine ⟨hexp, ?_⟩
  intro p hp
  rw [hexp] at hp
  rcases List.mem_map.mp hp with ⟨q, hqmem, hq⟩
  subst hq
  show (if q.hasAnswered then q.isCorrect else some false) ≠ none
  by_cases hqa : q.hasAnswered = true
  · rw [if_pos hqa]
    exact ((reachable_stateOk s h).2 q hqmem).2 hqa
  · rw [if_neg hqa]
    simp

/-- Claim C5, witness: the endRound result shape at a concrete reachable
active room. -/
theorem endRound_isCorrect_total_witness :
    Reachable activeRoom ∧ activeRoom.isGameActive = true ∧
    (endRound activeRoom).players = activeRoom.players.map (fun p =>
      { p with isCorrect := if p.hasAnswered then p.isCorrect else some false }) :=
  ⟨Reachable.start drawAdd 1000 (Reachable.join true "p1" "Ava" Reachable.init),
    by decide,
    (endRound_isCorrect_total activeRoom
      (Reachable.start drawAdd 1000 (Reachable.join true "p1" "Ava" Reachable.init))
      (by decide)).1⟩

/-- Claim C6: when the leaving player is the host and at least one other
player remains, handleLeaveGame keeps the room and promotes exactly the
remaining player at index 0 of join order to host: position-wise the new
list is the filtered list with isHost true at index 0 and false at every
other index, all other fields unchanged. -/
theorem leaveGame_promotes_first_remaining (s : GameState) (pid : String)
    (leaving : Player)
    (hfind : s.players.find? (fun p => p.id == pid) = some leaving)
    (hhost : leaving.isHost = true)
    (hrem : s.players.filter (fun p => !(p.id == pid)) ≠ []) :
    ∃ s2, handleLeaveGame pid s = some s2 ∧
      s2.players.length = (s.players.filter (fun p => !(p.id == pid))).length ∧
      ∀ i, s2.players.get? i =
        ((s.players.filter (fun p => !(p.id == pid))).get? i).map
          (fun p => { p with isHost := decide (i = 0) }) := by
  cases hfilter : s.players.filter (fun p => !(p.id == pid)) with
  | nil => exact absurd hfilter hrem
  | cons r rs =>
    have hne : (s.players.filter (fun p => !(p.id == pid))).isEmpty = false := by
      rw [hfilter]; rfl
    have heq : handleLeaveGame pid s = some { s with players :=
        ({ r with isHost := true } :: rs.map (fun p => { p with isHost := false })) } := by
      simp only [handleLeaveGame, hfind]
      rw [if_neg (by simp [hne]), if_pos hhost, hfilter, promote_cons]
    refine ⟨_, heq, ?_, ?_⟩
    · simp
    · intro i
      cases i with
      | zero => simp
      | succ i =>
        simp only [List.get?_cons_succ, List.get?_map]
        cases rs.get? i <;> simp

/-- Claim C6, witness: the host of a three-player room (join order Ava,
Ben, Cal) leaves; Ben, first remaining in join order, becomes host and
Cal does not. -/
theorem leaveGame_promotes_first_remaining_witness :
    threeRoom.players.find? (fun p => p.id == "p1") = some avaHost ∧
    avaHost.isHost = true ∧
    threeRoom.players.filter (fun p => !(p.id == "p1")) ≠ [] ∧
    ∃ s2, handleLeaveGame "p1" threeRoom = some s2 ∧
      s2.players.length =
        (threeRoom.players.filter (fun p => !(p.id == "p1"))).length ∧
      ∀ i, s2.players.get? i =
        ((threeRoom.players.filter (fun p => !(p.id == "p1"))).get? i).map
          (fun p => { p with isHost := decide (i = 0) }) :=
  ⟨by decide, by decide, by decide,
    leaveGame_promotes_first_remaining threeRoom "p1" avaHost (by decide)
      (by decide) (by decide)⟩

/-- Claim C7: when the last remaining player of a room leaves, the room
document is deleted: a subsequent get of that room code returns none
(NotFound). -/
theorem leaveRoomStore_deletes_last (st : Store) (code pid : String)
    (room : GameState) (p : Player)
    (hget : st.get code = some room)
    (hplayers : room.players = [p]) (hid : p.id = pid) :
    (leaveRoomStore code pid st).get code = none := by
  have hfind : room.players.find? (fun q => q.id == pid) = some p := by
    rw [hplayers]
    have hp : (p.id == pid) = true := by simp [hid]
    simp [List.find?_cons, hp]
  have hfilter : room.players.filter (fun q => !(q.id == pid)) = [] := by
    rw [hplayers]
    simp [hid]
  have hleave : handleLeaveGame pid room = none := by
    simp [handleLeaveGame, hfind, hfilter]
  show (leaveRoomStore code pid st) code = none
  unfold leaveRoomStore
  unfold Store.get at hget
  rw [hget]
  simp [Store.set, hleave]

/-- Claim C7, witness: Ava, the only player of the room stored under
482913, leaves; the room is no longer retrievable. -/
theorem leaveRoomStore_deletes_last_witness :
    soloStore.get "482913" = some hostedRoom ∧
    hostedRoom.players = [avaHost] ∧
    (leaveRoomStore "482913" "p1" soloStore).get "482913" = none :=
  ⟨by decide, by decide,
    leaveRoomStore_deletes_last soloStore "482913" "p1" hostedRoom avaHost
      (by decide) (by decide) (by decide)⟩

theorem submit_noop_inactive (pid : String) (v : Option Int) (t : Int)
    (s : GameState) (h : s.isGameActive = false) :
    handleAnswerSubmit pid v t s = s := by
  unfold handleAnswerSubmit
  rw [if_pos (by rw [h]; rfl)]

theorem submit_noop_timeup (pid : String) (v : Option Int) (t : Int)
    (s : GameState) (h : calculateRoundTimeLeft t ≤ 0) :
    handleAnswerSubmit pid v t s = s := by
  unfold handleAnswerSubmit
  by_cases hAct : (!s.isGameActive) = true
  · rw [if_pos hAct]
  · rw [if_neg hAct, if_pos h]

theorem submit_noop_notfound (pid : String) (v : Option Int) (t : Int)
    (s : GameState)
    (h : s.players.find? (fun p => p.id == pid) = none) :
    handleAnswerSubmit pid v t s = s := by
  unfold handleAnswerSubmit
  by_cases hAct : (!s.isGameActive) = true
  · rw [if_pos hAct]
  · rw [if_neg hAct]
    by_cases ht : calculateRoundTimeLeft t ≤ 0
    · rw [if_pos ht]
    · rw [if_neg ht, h]

theorem submit_noop_answered (pid : String) (v : Option Int) (t : Int)
    (s : GameState) (q : Player)
    (hfind : s.players.find? (fun p => p.id == pid) = some q)
    (hq : q.hasAnswered = true) :
    handleAnswerSubmit pid v t s = s := by
  unfold handleAnswerSubmit
  by_cases hAct : (!s.isGameActive) = true
  · rw [if_pos hAct]
  · rw [if_neg hAct]
    by_cases ht : calculateRoundTimeLeft t ≤ 0
    · rw [if_pos ht]
    · rw [if_neg ht, hfind]
      exact if_pos hq

theorem submit_noop_invalid (pid : String) (t : Int)
    (s : GameState) (q : Player)
    (hfind : s.players.find? (fun p => p.id == pid) = some q)
    (hq : q.hasAnswered = false) :
    handleAnswerSubmit pid none t s = s := by
  unfold handleAnswerSubmit
  by_cases hAct : (!s.isGameActive) = true
  · rw [if_pos hAct]
  · rw [if_neg hAct]
    by_cases ht : calculateRoundTimeLeft t ≤ 0
    · rw [if_pos ht]
    · rw [if_neg ht, hfind]
      exact if_neg (by simp [hq])

theorem submit_success (pid : String) (n t : Int) (s : GameState) (q : Player)
    (hAct : s.isGameActive = true) (ht : ¬calculateRoundTimeLeft t ≤ 0)
    (hfind : s.players.find? (fun p => p.id == pid) = some q)
    (hq : q.hasAnswered = false) :
    handleAnswerSubmit pid (some n) t s =
      { s with players := s.players.map (fun p =>
          if p.id == pid then
            { p with
              score := p.score + scoreToAdd (n == s.answer) t
              hasAnswered := true
              isCorrect := some (n == s.answer) }
          else p) } := by
  unfold handleAnswerSubmit
  rw [if_neg (by rw [hAct]; simp), if_neg ht, hfind]
  exact if_neg (by simp [hq])

theorem find_after_success (pid : String) (n t : Int) (s : GameState)
    (q : Player)
    (hfind : s.players.find? (fun p => p.id == pid) = some q) :
    (s.players.map (fun p =>
        if p.id == pid then
          { p with
            score := p.score + scoreToAdd (n == s.answer) t
            hasAnswered := true
            isCorrect := some (n == s.answer) }
        else p)).find? (fun p => p.id == pid) =
      some { q with
        score := q.score + scoreToAdd (n == s.answer) t
        hasAnswered := true
        isCorrect := some (n == s.answer) } := by
  have hqid : (q.id == pid) = true :=
    @List.find?_some Player (fun p => p.id == pid) q s.players hfind
  rw [find_update s.players pid (fun p =>
      { p with
        score := p.score + scoreToAdd (n == s.answer) t
        hasAnswered := true
        isCorrect := some (n == s.answer) }) (fun p => rfl), hfind]
  simp only [Option.map_some']
  rw [if_pos hqid]

/-- Claim C8: handleAnswerSubmit is idempotent within a round: a second
submission by the same player with the same value at any later elapsed
time leaves the state exactly as after the first submission (in
particular, a submission by a player whose hasAnswered is already true is
a no-op), so calling it twice yields exactly the state of calling it
once. -/
theorem handleAnswerSubmit_idempotent (s : GameState) (pid : String)
    (v : Option Int) (t1 t2 : Int) (h12 : t1 ≤ t2) :
    handleAnswerSubmit pid v t2 (handleAnswerSubmit pid v t1 s) =
      handleAnswerSubmit pid v t1 s := by
  by_cases hAct : s.isGameActive = true
  case neg =>
    have hA : s.isGameActive = false := by simpa using hAct
    rw [submit_noop_inactive pid v t1 s hA]
    exact submit_noop_inactive pid v t2 s hA
  case pos =>
    by_cases ht1 : calculateRoundTimeLeft t1 ≤ 0
    · have ht2 : calculateRoundTimeLeft t2 ≤ 0 := by
        unfold calculateRoundTimeLeft at ht1 ⊢
        omega
      rw [submit_noop_timeup pid v t1 s ht1]
      exact submit_noop_timeup pid v t2 s ht2
    · cases hfind : s.players.find? (fun p => p.id == pid) with
      | none =>
        rw [submit_noop_notfound pid v t1 s hfind]
        by_cases ht2 : calculateRoundTimeLeft t2 ≤ 0
        · exact submit_noop_timeup pid v t2 s ht2
        · exact submit_noop_notfound pid v t2 s hfind
      | some q =>
        cases hqa : q.hasAnswered with
        | true =>
          rw [submit_noop_answered pid v t1 s q hfind hqa]
          by_cases ht2 : calculateRoundTimeLeft t2 ≤ 0
          · exact submit_noop_timeup pid v t2 s ht2
          · exact submit_noop_answered pid v t2 s q hfind hqa
        | false =>
          cases v with
          | none =>
            rw [submit_noop_invalid pid t1 s q hfind hqa]
            by_cases ht2 : calculateRoundTimeLeft t2 ≤ 0
            · exact submit_noop_timeup pid none t2 s ht2
            · exact submit_noop_invalid pid t2 s q hfind hqa
          | some n =>
            rw [submit_success pid n t1 s q hAct ht1 hfind hqa]
            by_cases ht2 : calculateRoundTimeLeft t2 ≤ 0
            · exact submit_noop_timeup pid (some n) t2 _ ht2
            · refine submit_noop_answered pid (some n) t2 _
                ({ q with
                  score := q.score + scoreToAdd (n == s.answer) t1
                  hasAnswered := true
                  isCorrect := some (n == s.answer) }) ?_ rfl
              show (s.players.map (fun p =>
                  if p.id == pid then
                    { p with
                      score := p.score + scoreToAdd (n == s.answer) t1
                      hasAnswered := true
                      isCorrect := some (n == s.answer) }
                  else p)).find? (fun p => p.id == pid) = _
              exact find_after_success pid n t1 s q hfind

/-- Claim C8, witness: a double submission at a concrete room and player. -/
theorem handleAnswerSubmit_idempotent_witness :
    (2 : Int) ≤ 5 ∧
    handleAnswerSubmit "p1" (some 2) 5 (handleAnswerSubmit "p1" (some 2) 2 activeRoom) =
      handleAnswerSubmit "p1" (some 2) 2 activeRoom :=
  ⟨by decide,
    handleAnswerSubmit_idempotent activeRoom "p1" (some 2) 2 5 (by decide)⟩

/-- Claim C9: an incorrect submission awards 0; a correct one awards
max(5, decayScore elapsed) with decayScore monotonically decreasing in
elapsed time (strictly within the round window), hence strictly positive;
and a successful handleAnswerSubmit adds exactly that delta to the
submitting player's score, with correctness decided by exact equality
with the room's answer. -/
theorem handleAnswerSubmit_scoring :
    (∀ t : Int, scoreToAdd false t = 0) ∧
    (∀ t : Int, scoreToAdd true t = max 5 (decayScore t)) ∧
    (∀ t1 t2 : Int, t1 ≤ t2 → decayScore t2 ≤ decayScore t1) ∧
    (∀ t1 t2 : Int, 0 ≤ t1 → t1 < t2 → t2 ≤ ROUND_DURATION →
      decayScore t2 < decayScore t1) ∧
    (∀ t : Int, 0 < scoreToAdd true t) ∧
    (∀ (s : GameState) (pid : String) (v t : Int) (q : Player),
      s.isGameActive = true →
      ¬(calculateRoundTimeLeft t ≤ 0) →
      s.players.find? (fun p => p.id == pid) = some q →
      q.hasAnswered = false →
      (handleAnswerSubmit pid (some v) t s).players.find? (fun p => p.id == pid) =
        some { q with
          score := q.score + scoreToAdd (v == s.answer) t
          hasAnswered := true
          isCorrect := some (v == s.answer) }) := by
  refine ⟨fun t => rfl, fun t => rfl, ?_, ?_, ?_, ?_⟩
  · intro t1 t2 h
    simp only [decayScore, timeTaken, ROUND_DURATION]
    omega
  · intro t1 t2 h0 h12 h30
    simp only [ROUND_DURATION] at h30
    simp only [decayScore, timeTaken, ROUND_DURATION]
    omega
  · intro t
    have h5 : 5 ≤ max 5 (decayScore t) := le_max_left _ _
    have h2 : scoreToAdd true t = max 5 (decayScore t) := rfl
    omega
  · intro s pid v t q hAct ht hfind hq
    rw [submit_success pid v t s q hAct ht hfind hq]
    show (s.players.map (fun p =>
        if p.id == pid then
          { p with
            score := p.score + scoreToAdd (v == s.answer) t
            hasAnswered := true
            isCorrect := some (v == s.answer) }
        else p)).find? (fun p => p.id == pid) = _
    exact find_after_success pid v t s q hfind

/-- Claim C9, witness: monotonicity at 3 ≤ 10, strict decrease at 3 < 10,
and the concrete score update for a submission at elapsed 2 seconds. -/
theorem handleAnswerSubmit_scoring_witness :
    ((3 : Int) ≤ 10 ∧ decayScore 10 ≤ decayScore 3) ∧
    decayScore 10 < decayScore 3 ∧
    (handleAnswerSubmit "p1" (some 1) 2 activeRoom).players.find?
        (fun p => p.id == "p1") =
      some { avaHost with
        score := avaHost.score + scoreToAdd ((1 : Int) == activeRoom.answer) 2
        hasAnswered := true
        isCorrect := some ((1 : Int) == activeRoom.answer) } :=
  ⟨⟨by decide, handleAnswerSubmit_scoring.2.2.1 3 10 (by decide)⟩,
    handleAnswerSubmit_scoring.2.2.2.1 3 10 (by decide) (by decide) (by decide),
    handleAnswerSubmit_scoring.2.2.2.2.2 activeRoom "p1" 1 2 avaHost
      (by decide) (by decide) (by decide) (by decide)⟩


/-- Claim C10: nextQuestion only changes each player's hasAnswered and
isCorrect (to false and unknown): the list length and every player's id,
name, score and isHost are unchanged, so scores carry over between
rounds. -/
theorem nextQuestion_frame (d : EqDraw) (ts : Int) (s : GameState)
    (hact : s.isGameActive = true) :
    (nextQuestion d ts s).players.length = s.players.length ∧
    (∀ i, ((nextQuestion d ts s).players.get? i).map Player.id =
      (s.players.get? i).map Player.id) ∧
    (∀ i, ((nextQuestion d ts s).players.get? i).map Player.name =
      (s.players.get? i).map Player.name) ∧
    (∀ i, ((nextQuestion d ts s).players.get? i).map Player.score =
      (s.players.get? i).map Player.score) ∧
    (∀ i, ((nextQuestion d ts s).players.get? i).map Player.isHost =
      (s.players.get? i).map Player.isHost) ∧
    (∀ p ∈ (nextQuestion d ts s).players,
      p.hasAnswered = false ∧ p.isCorrect = none) := by
  have hexp : (nextQuestion d ts s).players = s.players.map (fun p =>
      { p with hasAnswered := false, isCorrect := none }) := by
    simp [nextQuestion, hact]
  refine ⟨by rw [hexp]; simp, ?_, ?_, ?_, ?_, ?_⟩
  · intro i; rw [hexp, List.get?_map]; cases s.players.get? i <;> simp
  · intro i; rw [hexp, List.get?_map]; cases s.players.get? i <;> simp
  · intro i; rw [hexp, List.get?_map]; cases s.players.get? i <;> simp
  · intro i; rw [hexp, List.get?_map]; cases s.players.get? i <;> simp
  · intro p hp
    rw [hexp] at hp
    rcases List.mem_map.mp hp with ⟨q, _, hq⟩
    subst hq
    exact ⟨rfl, rfl⟩

/-- Claim C10, witness: the frame condition at a concrete active room. -/
theorem nextQuestion_frame_witness :
    activeRoom.isGameActive = true ∧
    (nextQuestion drawAdd 2000 activeRoom).players.length =
      activeRoom.players.length :=
  ⟨by decide, (nextQuestion_frame drawAdd 2000 activeRoom (by decide)).1⟩

end MathMania
